import Mathlib

/-!
Verification of the `collapsible_match` static-analysis pass
(`src/tools/clippy/clippy_lints/src/collapsible_match.rs`).

The data model (expressions, arms, patterns, guards) follows the spec's §3,
since the host compiler's syntax-tree types are external to the analyzed
source.  The analysis functions (`is_wild_like`, `strip_singleton_blocks`,
`find_pat_binding`, `pat_contains_or`, `check_arm`, `check_if_let` and the
driver `check_expr`) are translated directly from the source file.
-/

namespace CollapsibleMatch

/-- Source position metadata: a position and a syntax (macro-hygiene) context.
Structural equivalence ignores it; reports carry it. -/
structure Span where
  pos : Nat
  ctxt : Nat
deriving DecidableEq, Repr

/-- Pattern: tagged variant per spec §3 — `Wildcard`, `Binding(identifier)`,
`Constructor(name, subpatterns)`, `Or(alternatives)`, and opaque
literal/range patterns (`lit`) never destructured further.  `binding`
carries the declaration-site handle (`HirId`) that identifies the binding. -/
inductive Pat where
  | wild (span : Span)
  | binding (hirId : Nat) (span : Span)
  | ctor (name : Nat) (args : List Pat) (span : Span)
  | orPat (alts : List Pat) (span : Span)
  | lit (tag : Nat) (span : Span)
deriving Repr

mutual

/-- Expression: `block` (statements + optional trailing expression),
`caseDispatch` (a `match`), `condBinding` (the `if let` form, recognized by
the external `higher::IfLet` extractor and modelled as its normalized view),
`localRef` (a path to a local binding, wrapped in `refDepth` reference /
dereference operators that `peel_ref_operators` strips), and opaque
`other` nodes with child expressions. -/
inductive Expr where
  | block (stmts : List Stmt) (trailing : Option Expr) (span : Span)
  | caseDispatch (scrut : Expr) (arms : List Arm) (span : Span)
  | condBinding (pat : Pat) (scrut : Expr) (thenB : Expr) (elseB : Option Expr) (span : Span)
  | localRef (hirId : Nat) (refDepth : Nat) (span : Span)
  | other (tag : Nat) (children : List Expr) (span : Span)

/-- Statement: expression statement, semicolon statement, or a local/item
declaration (not extractable by `strip_singleton_blocks`). -/
inductive Stmt where
  | exprStmt (e : Expr)
  | semi (e : Expr)
  | localDecl (tag : Nat)

/-- Arm of a `caseDispatch`: pattern, optional guard, body. -/
inductive Arm where
  | mk (pat : Pat) (guard : Option GuardE) (body : Expr)

/-- Arm guard: `if <expr>` or `if let <pat> = <expr>`. -/
inductive GuardE where
  | ifGuard (e : Expr)
  | ifLetGuard (p : Pat) (e : Expr)

end

def Arm.pat : Arm → Pat
  | .mk p _ _ => p

def Arm.guard : Arm → Option GuardE
  | .mk _ g _ => g

def Arm.body : Arm → Expr
  | .mk _ _ b => b

/-- The expression tested by a guard. -/
def GuardE.expr : GuardE → Expr
  | .ifGuard e => e
  | .ifLetGuard _ e => e

/-- External-collaborator context: recognition of the standard nullary
"absent" constructor (`is_lang_ctor (…) OptionNone`). -/
structure Ctx where
  isAbsentCtor : Nat → Bool

def Pat.span : Pat → Span
  | .wild sp => sp
  | .binding _ sp => sp
  | .ctor _ _ sp => sp
  | .orPat _ sp => sp
  | .lit _ sp => sp

def Expr.span : Expr → Span
  | .block _ _ sp => sp
  | .caseDispatch _ _ sp => sp
  | .condBinding _ _ _ _ sp => sp
  | .localRef _ _ sp => sp
  | .other _ _ sp => sp

mutual

/-- Structural size of a pattern (span-independent), used for termination
and for refuting spurious structural equivalences. -/
def Pat.size : Pat → Nat
  | .wild _ => 1
  | .binding _ _ => 1
  | .ctor _ args _ => 1 + Pat.sizeList args
  | .orPat alts _ => 1 + Pat.sizeList alts
  | .lit _ _ => 1

def Pat.sizeList : List Pat → Nat
  | [] => 0
  | p :: ps => Pat.size p + Pat.sizeList ps

end

mutual

/-- Structural size of an expression (span-independent). -/
def Expr.size : Expr → Nat
  | .block ss t _ => 1 + Stmt.sizeList ss + Expr.sizeOpt t
  | .caseDispatch sc as _ => 1 + Expr.size sc + Arm.sizeList as
  | .condBinding p sc t e _ => 1 + Pat.size p + Expr.size sc + Expr.size t + Expr.sizeOpt e
  | .localRef _ _ _ => 1
  | .other _ cs _ => 1 + Expr.sizeList cs

def Expr.sizeOpt : Option Expr → Nat
  | none => 0
  | some e => Expr.size e

def Expr.sizeList : List Expr → Nat
  | [] => 0
  | e :: es => Expr.size e + Expr.sizeList es

def Stmt.size : Stmt → Nat
  | .exprStmt e => 1 + Expr.size e
  | .semi e => 1 + Expr.size e
  | .localDecl _ => 1

def Stmt.sizeList : List Stmt → Nat
  | [] => 0
  | s :: ss => Stmt.size s + Stmt.sizeList ss

def Arm.size : Arm → Nat
  | .mk p g b => 1 + Pat.size p + GuardE.sizeOpt g + Expr.size b

def Arm.sizeList : List Arm → Nat
  | [] => 0
  | a :: as => Arm.size a + Arm.sizeList as

def GuardE.size : GuardE → Nat
  | .ifGuard e => 1 + Expr.size e
  | .ifLetGuard p e => 1 + Pat.size p + Expr.size e

def GuardE.sizeOpt : Option GuardE → Nat
  | none => 0
  | some g => GuardE.size g

end

mutual

/-- Span-insensitive structural equality on patterns; identifiers are
compared by declaration-site handle, never by name. -/
def eqPat : Pat → Pat → Bool
  | .wild _, .wild _ => true
  | .binding i1 _, .binding i2 _ => i1 == i2
  | .ctor n1 a1 _, .ctor n2 a2 _ => n1 == n2 && eqPatList a1 a2
  | .orPat a1 _, .orPat a2 _ => eqPatList a1 a2
  | .lit t1 _, .lit t2 _ => t1 == t2
  | _, _ => false

def eqPatList : List Pat → List Pat → Bool
  | [], [] => true
  | p :: ps, q :: qs => eqPat p q && eqPatList ps qs
  | _, _ => false

end

mutual

/-- SpanlessEq for expressions: deep recursive comparison ignoring
source-position metadata; composite nodes are equal iff their kinds match
and all children are pairwise equivalent, in order. -/
def eqExpr : Expr → Expr → Bool
  | .block s1 t1 _, .block s2 t2 _ => eqStmtList s1 s2 && eqOptExpr t1 t2
  | .caseDispatch sc1 a1 _, .caseDispatch sc2 a2 _ => eqExpr sc1 sc2 && eqArmList a1 a2
  | .condBinding p1 sc1 t1 e1 _, .condBinding p2 sc2 t2 e2 _ =>
      eqPat p1 p2 && eqExpr sc1 sc2 && eqExpr t1 t2 && eqOptExpr e1 e2
  | .localRef i1 d1 _, .localRef i2 d2 _ => i1 == i2 && d1 == d2
  | .other t1 c1 _, .other t2 c2 _ => t1 == t2 && eqExprList c1 c2
  | _, _ => false

def eqOptExpr : Option Expr → Option Expr → Bool
  | none, none => true
  | some a, some b => eqExpr a b
  | _, _ => false

def eqExprList : List Expr → List Expr → Bool
  | [], [] => true
  | a :: as, b :: bs => eqExpr a b && eqExprList as bs
  | _, _ => false

def eqStmt : Stmt → Stmt → Bool
  | .exprStmt a, .exprStmt b => eqExpr a b
  | .semi a, .semi b => eqExpr a b
  | .localDecl t1, .localDecl t2 => t1 == t2
  | _, _ => false

def eqStmtList : List Stmt → List Stmt → Bool
  | [], [] => true
  | a :: as, b :: bs => eqStmt a b && eqStmtList as bs
  | _, _ => false

def eqArm : Arm → Arm → Bool
  | .mk p1 g1 b1, .mk p2 g2 b2 => eqPat p1 p2 && eqOptGuard g1 g2 && eqExpr b1 b2

def eqArmList : List Arm → List Arm → Bool
  | [], [] => true
  | a :: as, b :: bs => eqArm a b && eqArmList as bs
  | _, _ => false

def eqGuard : GuardE → GuardE → Bool
  | .ifGuard a, .ifGuard b => eqExpr a b
  | .ifLetGuard p a, .ifLetGuard q b => eqPat p q && eqExpr a b
  | _, _ => false

def eqOptGuard : Option GuardE → Option GuardE → Bool
  | none, none => true
  | some a, some b => eqGuard a b
  | _, _ => false

end

mutual

/-- Binding-usage analysis (`LocalUsedVisitor`): `true` iff a read
reference to the local `id` occurs anywhere in the expression, including
nested sub-expressions; pattern positions never count. -/
def usedIn (id : Nat) : Expr → Bool
  | .block ss t _ => usedInStmts id ss || usedInOpt id t
  | .caseDispatch sc as _ => usedIn id sc || usedInArms id as
  | .condBinding _ sc t e _ => usedIn id sc || usedIn id t || usedInOpt id e
  | .localRef i _ _ => i == id
  | .other _ cs _ => usedInList id cs

def usedInOpt (id : Nat) : Option Expr → Bool
  | none => false
  | some e => usedIn id e

def usedInList (id : Nat) : List Expr → Bool
  | [] => false
  | e :: es => usedIn id e || usedInList id es

def usedInStmts (id : Nat) : List Stmt → Bool
  | [] => false
  | s :: ss => usedInStmt id s || usedInStmts id ss

def usedInStmt (id : Nat) : Stmt → Bool
  | .exprStmt e => usedIn id e
  | .semi e => usedIn id e
  | .localDecl _ => false

def usedInArms (id : Nat) : List Arm → Bool
  | [] => false
  | a :: as => usedInArm id a || usedInArms id as

def usedInArm (id : Nat) : Arm → Bool
  | .mk _ g b => usedInGuardOpt id g || usedIn id b

def usedInGuardOpt (id : Nat) : Option GuardE → Bool
  | none => false
  | some (.ifGuard e) => usedIn id e
  | some (.ifLetGuard _ e) => usedIn id e

end

/-- Pattern Classifier (`is_wild_like`): a "wild-like" pattern is wild
(`_`), a plain binding, or the nullary absent constructor (`None`); a
guarded arm is never wild-like. -/
def is_wild_like (cx : Ctx) (pat : Pat) (arm_guard : Option GuardE) : Bool :=
  if arm_guard.isSome then
    false
  else
    match pat with
    | .binding _ _ => true
    | .wild _ => true
    | .ctor name [] _ => cx.isAbsentCtor name
    | _ => false

/-- Composition `path_to_local (peel_ref_operators cx e)`: strips
reference/dereference wrappers and returns the local binding's identity if
the expression is a bare reference to a local, `none` otherwise
(spec §6 `resolve_bound_identifier`). -/
def path_to_local_peeled : Expr → Option Nat
  | .localRef i _ _ => some i
  | _ => none

/-- Block-unwrapping (`strip_singleton_blocks`): repeatedly reduces a block
to its sole contained expression while the block holds exactly one
expression/semicolon statement and no trailing expression, or no statements
and exactly one trailing expression; anything else is returned unchanged. -/
def strip_singleton_blocks : Expr → Expr
  | .block [.exprStmt e] none _ => strip_singleton_blocks e
  | .block [.semi e] none _ => strip_singleton_blocks e
  | .block [] (some e) _ => strip_singleton_blocks e
  | e => e
termination_by e => Expr.size e
decreasing_by
  all_goals simp [Expr.size, Stmt.size, Stmt.sizeList, Expr.sizeOpt]
  all_goals omega

/-- One unwrapping step of `strip_singleton_blocks`: the sole contained
expression of a trivial singleton wrapper block, `none` otherwise. -/
def singletonStep : Expr → Option Expr
  | .block [.exprStmt e] none _ => some e
  | .block [.semi e] none _ => some e
  | .block [] (some e) _ => some e
  | _ => none

mutual

/-- Body of `find_pat_binding`'s `walk_short` traversal: returns the
recorded span variable and whether the walk may continue.  An `Or` pattern
aborts the whole walk (`walk_short` short-circuits with `.all`); a binding
with the searched `HirId` records its span and aborts; other nodes continue
into their children left to right. -/
def findPatBindingAux (hirId : Nat) : Pat → Option Span × Bool
  | .orPat _ _ => (none, false)
  | .binding i sp => if i == hirId then (some sp, false) else (none, true)
  | .wild _ => (none, true)
  | .lit _ _ => (none, true)
  | .ctor _ args _ => findPatBindingList hirId args

def findPatBindingList (hirId : Nat) : List Pat → Option Span × Bool
  | [] => (none, true)
  | p :: ps =>
    match findPatBindingAux hirId p with
    | (res, false) => (res, false)
    | (_, true) => findPatBindingList hirId ps

end

/-- Binding-position search (`find_pat_binding`): the span of the binding
occurrence of `hirId` in `pat`, ignoring everything at or below `Or`
patterns (the walk short-circuits at the first `Or` encountered). -/
def find_pat_binding (pat : Pat) (hirId : Nat) : Option Span :=
  (findPatBindingAux hirId pat).1

mutual

/-- Whether a pattern contains an `Or` sub-pattern anywhere in its
structure (`pat_contains_or`, via `Pat::walk`). -/
def pat_contains_or : Pat → Bool
  | .orPat _ _ => true
  | .ctor _ args _ => patListContainsOr args
  | _ => false

def patListContainsOr : List Pat → Bool
  | [] => false
  | p :: ps => pat_contains_or p || patListContainsOr ps

end

/-- The `Iterator::rfind` combinator: last element satisfying `p`. -/
def rfind {α : Type} (l : List α) (p : α → Bool) : Option α :=
  match l with
  | [] => none
  | a :: as =>
    match rfind as p with
    | some x => some x
    | none => if p a then some a else none

/-- The `Iterator::rposition` combinator: index (from the front) of the
last element satisfying `p`. -/
def rposition {α : Type} (l : List α) (p : α → Bool) : Option Nat :=
  match l with
  | [] => none
  | a :: as =>
    match rposition as p with
    | some i => some (i + 1)
    | none => if p a then some 0 else none

/-- Report emitted by `span_lint_and_then`: the primary span (the nested
dispatch), the binding span ("replace this binding") and the kept inner
pattern's span ("with this pattern"). -/
structure Report where
  primarySpan : Span
  bindingSpan : Span
  patternSpan : Span
deriving DecidableEq, Repr

/-- Condition 4.5.5 of `check_arm`
(`wild_outer_block.map(|el| SpanlessEq::eq_expr(wild_inner_arm.body, el)).unwrap_or(true)`):
with a fallback body present the inner wild body must be structurally
equivalent to it; with no fallback the condition is vacuously true. -/
def wildBodiesEq (wild_inner_body : Expr) (wild_outer_block : Option Expr) : Bool :=
  (wild_outer_block.map (fun el => eqExpr wild_inner_body el)).getD true

/-- Guard-usage condition of `check_arm`: with no outer guard the condition
holds; with a guard (`if` or `if let`) the binding must not be used in the
guard's expression. -/
def guardNotUses (binding_id : Nat) (outer_guard : Option GuardE) : Bool :=
  match outer_guard with
  | none => true
  | some g => !usedIn binding_id g.expr

/-- Multi-arm Collapse Detector (`check_arm`): checks one outer arm (body,
guard, pattern) against the optional wild fallback body, emitting at most
one report.  The condition chain mirrors the source `if_chain!` in order. -/
def check_arm (cx : Ctx) (outer_block : Expr) (outer_guard : Option GuardE)
    (outer_pat : Pat) (wild_outer_block : Option Expr) : Option Report :=
  match strip_singleton_blocks outer_block with
  | .caseDispatch expr_in arms_inner sp =>
    if (Expr.span expr_in).ctxt == (Pat.span outer_pat).ctxt then
      if arms_inner.length == 2 then
        if arms_inner.all (fun a => a.guard.isNone) then
          match path_to_local_peeled expr_in with
          | some binding_id =>
            match rposition arms_inner (fun a => is_wild_like cx a.pat a.guard) with
            | some wild_inner_arm_idx =>
              match arms_inner[wild_inner_arm_idx]?, arms_inner[1 - wild_inner_arm_idx]? with
              | some wild_inner_arm, some non_wild_inner_arm =>
                if !pat_contains_or non_wild_inner_arm.pat then
                  match find_pat_binding outer_pat binding_id with
                  | some binding_span =>
                    if wildBodiesEq wild_inner_arm.body wild_outer_block then
                      if guardNotUses binding_id outer_guard then
                        if !arms_inner.any (fun a => usedInArm binding_id a) then
                          some ⟨sp, binding_span, Pat.span non_wild_inner_arm.pat⟩
                        else none
                      else none
                    else none
                  | none => none
                else none
              | _, _ => none
            | none => none
          | none => none
        else none
      else none
    else none
  | _ => none

/-- Conditional-binding Collapse Detector (`check_if_let`): checks whether
the unwrapped outer expression is itself a conditional-binding scrutinizing
a local bound in `outer_pat` that is unused in the inner then-body. -/
def check_if_let (cx : Ctx) (outer_expr : Expr) (outer_pat : Pat) : Option Report :=
  match strip_singleton_blocks outer_expr with
  | .condBinding inner_let_pat inner_let_expr inner_if_then _ sp =>
    match path_to_local_peeled inner_let_expr with
    | some binding_id =>
      match find_pat_binding outer_pat binding_id with
      | some binding_span =>
        if !usedIn binding_id inner_if_then then
          some ⟨sp, binding_span, Pat.span inner_let_pat⟩
        else none
      | none => none
    | none => none
  | _ => none

/-- Reports of the multi-arm path for one dispatch: when a wild-like
fallback arm exists (last such, scanning from the end), every arm —
including the fallback itself — is checked by `check_arm` against the
fallback's body; with no wild-like arm, no check runs. -/
def multiArmReports (cx : Ctx) (arms : List Arm) : List Report :=
  match rfind arms (fun a => is_wild_like cx a.pat a.guard) with
  | some wild_arm =>
    arms.filterMap (fun arm => check_arm cx arm.body arm.guard arm.pat (some wild_arm.body))
  | none => []

/-- Driver (`CollapsibleMatch::check_expr`): reports produced for one
expression node.  A conditional-binding feeds `check_arm` (with its else
body as fallback) and `check_if_let`; a `match` feeds the multi-arm path
and `check_if_let` on its first arm. -/
def check_expr (cx : Ctx) (e : Expr) : List Report :=
  match e with
  | .condBinding let_pat _ if_then if_else _ =>
    (check_arm cx if_then none let_pat if_else).toList ++
      (check_if_let cx if_then let_pat).toList
  | .caseDispatch _ arms _ =>
    multiArmReports cx arms ++
      (match arms.head? with
       | some first_arm => (check_if_let cx first_arm.body first_arm.pat).toList
       | none => [])
  | _ => []

mutual

theorem eqPat_size : ∀ a b, eqPat a b = true → Pat.size a = Pat.size b
  | .wild _, b, h => by cases b <;> simp_all [eqPat, Pat.size]
  | .binding _ _, b, h => by cases b <;> simp_all [eqPat, Pat.size]
  | .lit _ _, b, h => by cases b <;> simp_all [eqPat, Pat.size]
  | .ctor _ a1 _, b, h => by
      cases b <;> simp_all [eqPat, Pat.size]
      exact eqPatList_size _ _ h.2
  | .orPat a1 _, b, h => by
      cases b <;> simp_all [eqPat, Pat.size]
      exact eqPatList_size _ _ h

theorem eqPatList_size : ∀ l1 l2, eqPatList l1 l2 = true → Pat.sizeList l1 = Pat.sizeList l2
  | [], l2, h => by cases l2 <;> simp_all [eqPatList, Pat.sizeList]
  | p :: ps, l2, h => by
      cases l2 <;> simp_all [eqPatList, Pat.sizeList]
      have h1 := eqPat_size p _ h.1
      have h2 := eqPatList_size ps _ h.2
      omega

end

mutual

theorem eqExpr_size : ∀ a b, eqExpr a b = true → Expr.size a = Expr.size b
  | .block s1 t1 _, b, h => by
      cases b <;> simp_all [eqExpr, Expr.size]
      have h1 := eqStmtList_size s1 _ h.1
      have h2 := eqOptExpr_size t1 _ h.2
      omega
  | .caseDispatch sc1 a1 _, b, h => by
      cases b <;> simp_all [eqExpr, Expr.size]
      have h1 := eqExpr_size sc1 _ h.1
      have h2 := eqArmList_size a1 _ h.2
      omega
  | .condBinding p1 sc1 t1 e1 _, b, h => by
      cases b <;> simp_all [eqExpr, Expr.size]
      have h0 := eqPat_size p1 _ h.1.1.1
      have h1 := eqExpr_size sc1 _ h.1.1.2
      have h2 := eqExpr_size t1 _ h.1.2
      have h3 := eqOptExpr_size e1 _ h.2
      omega
  | .localRef _ _ _, b, h => by cases b <;> simp_all [eqExpr, Expr.size]
  | .other _ c1 _, b, h => by
      cases b <;> simp_all [eqExpr, Expr.size]
      exact eqExprList_size c1 _ h.2

theorem eqOptExpr_size : ∀ o1 o2, eqOptExpr o1 o2 = true → Expr.sizeOpt o1 = Expr.sizeOpt o2
  | none, o2, h => by cases o2 <;> simp_all [eqOptExpr, Expr.sizeOpt]
  | some e1, o2, h => by
      cases o2 <;> simp_all [eqOptExpr, Expr.sizeOpt]
      exact eqExpr_size e1 _ h

theorem eqExprList_size : ∀ l1 l2, eqExprList l1 l2 = true → Expr.sizeList l1 = Expr.sizeList l2
  | [], l2, h => by cases l2 <;> simp_all [eqExprList, Expr.sizeList]
  | e :: es, l2, h => by
      cases l2 <;> simp_all [eqExprList, Expr.sizeList]
      have h1 := eqExpr_size e _ h.1
      have h2 := eqExprList_size es _ h.2
      omega

theorem eqStmt_size : ∀ s1 s2, eqStmt s1 s2 = true → Stmt.size s1 = Stmt.size s2
  | .exprStmt e1, s2, h => by
      cases s2 <;> simp_all [eqStmt, Stmt.size]
      exact eqExpr_size e1 _ h
  | .semi e1, s2, h => by
      cases s2 <;> simp_all [eqStmt, Stmt.size]
      exact eqExpr_size e1 _ h
  | .localDecl _, s2, h => by cases s2 <;> simp_all [eqStmt, Stmt.size]

theorem eqStmtList_size : ∀ l1 l2, eqStmtList l1 l2 = true → Stmt.sizeList l1 = Stmt.sizeList l2
  | [], l2, h => by cases l2 <;> simp_all [eqStmtList, Stmt.sizeList]
  | s :: ss, l2, h => by
      cases l2 <;> simp_all [eqStmtList, Stmt.sizeList]
      have h1 := eqStmt_size s _ h.1
      have h2 := eqStmtList_size ss _ h.2
      omega

theorem eqArm_size : ∀ a1 a2, eqArm a1 a2 = true → Arm.size a1 = Arm.size a2
  | .mk p1 g1 b1, .mk p2 g2 b2, h => by
      simp_all [eqArm, Arm.size]
      have h0 := eqPat_size p1 _ h.1.1
      have h1 := eqOptGuard_size g1 _ h.1.2
      have h2 := eqExpr_size b1 _ h.2
      omega

theorem eqArmList_size : ∀ l1 l2, eqArmList l1 l2 = true → Arm.sizeList l1 = Arm.sizeList l2
  | [], l2, h => by cases l2 <;> simp_all [eqArmList, Arm.sizeList]
  | a :: as, l2, h => by
      cases l2 <;> simp_all [eqArmList, Arm.sizeList]
      have h1 := eqArm_size a _ h.1
      have h2 := eqArmList_size as _ h.2
      omega

theorem eqGuard_size : ∀ g1 g2, eqGuard g1 g2 = true → GuardE.size g1 = GuardE.size g2
  | .ifGuard e1, g2, h => by
      cases g2 <;> simp_all [eqGuard, GuardE.size]
      exact eqExpr_size e1 _ h
  | .ifLetGuard p1 e1, g2, h => by
      cases g2 <;> simp_all [eqGuard, GuardE.size]
      have h0 := eqPat_size p1 _ h.1
      have h1 := eqExpr_size e1 _ h.2
      omega

theorem eqOptGuard_size : ∀ o1 o2, eqOptGuard o1 o2 = true → GuardE.sizeOpt o1 = GuardE.sizeOpt o2
  | none, o2, h => by cases o2 <;> simp_all [eqOptGuard, GuardE.sizeOpt]
  | some g1, o2, h => by
      cases o2 <;> simp_all [eqOptGuard, GuardE.sizeOpt]
      exact eqGuard_size g1 _ h

end


theorem strip_size_le (e : Expr) : Expr.size (strip_singleton_blocks e) ≤ Expr.size e := by
  induction e using strip_singleton_blocks.induct with
  | case1 e sp ih =>
      rw [strip_singleton_blocks]
      simp [Expr.size, Stmt.size, Stmt.sizeList, Expr.sizeOpt] at *
      omega
  | case2 e sp ih =>
      rw [strip_singleton_blocks]
      simp [Expr.size, Stmt.size, Stmt.sizeList, Expr.sizeOpt] at *
      omega
  | case3 e sp ih =>
      rw [strip_singleton_blocks]
      simp [Expr.size, Stmt.size, Stmt.sizeList, Expr.sizeOpt] at *
      omega
  | case4 e h1 h2 h3 =>
      rw [strip_singleton_blocks]
      all_goals first
        | exact Nat.le_refl _
        | exact h1
        | exact h2
        | exact h3

theorem arm_size_le_of_mem {a : Arm} {l : List Arm} (h : a ∈ l) : Arm.size a ≤ Arm.sizeList l := by
  induction l with
  | nil => cases h
  | cons x xs ih =>
      rcases List.mem_cons.mp h with h1 | h2
      · subst h1; simp only [Arm.sizeList]; omega
      · have := ih h2; simp only [Arm.sizeList]; omega

theorem body_size_lt_arm (a : Arm) : Expr.size a.body < Arm.size a := by
  cases a with
  | mk p g b => simp only [Arm.size, Arm.body]; omega

theorem rposition_spec {α : Type} (l : List α) (p : α → Bool) (i : Nat)
    (h : rposition l p = some i) : ∃ a, l[i]? = some a ∧ p a = true := by
  induction l generalizing i with
  | nil => simp [rposition] at h
  | cons x xs ih =>
      rw [rposition] at h
      cases hr : rposition xs p with
      | some j =>
          rw [hr] at h
          simp at h
          obtain ⟨a, ha, hpa⟩ := ih j hr
          subst h
          exact ⟨a, by simpa using ha, hpa⟩
      | none =>
          rw [hr] at h
          by_cases hp : p x = true
          · simp [hp] at h
            subst h
            exact ⟨x, by simp, hp⟩
          · simp [hp] at h

theorem rfind_eq_none {α : Type} (l : List α) (p : α → Bool)
    (h : ∀ a ∈ l, p a = false) : rfind l p = none := by
  induction l with
  | nil => rw [rfind]
  | cons x xs ih =>
      rw [rfind, ih (fun a ha => h a (List.mem_cons_of_mem x ha))]
      simp [h x (List.mem_cons_self x xs)]

theorem rfind_none_all {α : Type} (l : List α) (p : α → Bool) (h : rfind l p = none) :
    ∀ a ∈ l, p a = false := by
  induction l with
  | nil => simp
  | cons x xs ih =>
      rw [rfind] at h
      cases hr : rfind xs p with
      | some y => rw [hr] at h; simp at h
      | none =>
          rw [hr] at h
          by_cases hp : p x = true
          · simp [hp] at h
          · intro a ha
            rcases List.mem_cons.mp ha with h1 | h2
            · subst h1; simpa using hp
            · exact ih hr a h2

theorem rfind_last {α : Type} (l : List α) (p : α → Bool) (w : α)
    (h : rfind l p = some w) :
    p w = true ∧ ∃ i, l[i]? = some w ∧
      ∀ (j : Nat) (b : α), i < j → l[j]? = some b → p b = false := by
  induction l generalizing w with
  | nil => simp [rfind] at h
  | cons x xs ih =>
      rw [rfind] at h
      cases hr : rfind xs p with
      | some y =>
          rw [hr] at h
          simp at h
          subst h
          obtain ⟨hpw, i, hi, hlast⟩ := ih _ hr
          refine ⟨hpw, i + 1, by simpa using hi, ?_⟩
          intro j b hj hjb
          cases j with
          | zero => omega
          | succ j =>
              exact hlast j b (by omega) (by simpa using hjb)
      | none =>
          rw [hr] at h
          by_cases hp : p x = true
          · simp [hp] at h
            subst h
            refine ⟨hp, 0, by simp, ?_⟩
            intro j b hj hjb
            cases j with
            | zero => omega
            | succ j =>
                simp at hjb
                exact rfind_none_all xs p hr b (List.getElem?_mem hjb)
          · simp [hp] at h


/-- Inversion of the multi-arm detector: a produced report implies every
condition of the `check_arm` chain, and determines the report's fields. -/
theorem check_arm_inv {cx : Ctx} {ob : Expr} {og : Option GuardE} {op : Pat} {wob : Option Expr}
    {r : Report} (h : check_arm cx ob og op wob = some r) :
    ∃ expr_in arms_inner sp binding_id widx wild_inner non_wild binding_span,
      strip_singleton_blocks ob = .caseDispatch expr_in arms_inner sp ∧
      ((Expr.span expr_in).ctxt == (Pat.span op).ctxt) = true ∧
      (arms_inner.length == 2) = true ∧
      arms_inner.all (fun a => a.guard.isNone) = true ∧
      path_to_local_peeled expr_in = some binding_id ∧
      rposition arms_inner (fun a => is_wild_like cx a.pat a.guard) = some widx ∧
      arms_inner[widx]? = some wild_inner ∧
      arms_inner[1 - widx]? = some non_wild ∧
      (!pat_contains_or non_wild.pat) = true ∧
      find_pat_binding op binding_id = some binding_span ∧
      wildBodiesEq wild_inner.body wob = true ∧
      guardNotUses binding_id og = true ∧
      (!arms_inner.any (fun a => usedInArm binding_id a)) = true ∧
      r = ⟨sp, binding_span, Pat.span non_wild.pat⟩ := by
  unfold check_arm at h
  repeat' split at h
  all_goals try exact Option.noConfusion h
  rename_i x1 expr_in arms_inner sp heq hctxt hlen hguards x2 binding_id hlocal x3 widx hrpos
    x4 x5 wild_inner non_wild hwild hnon hor x6 binding_span hbind heqv hguard huse
  exact ⟨expr_in, arms_inner, sp, binding_id, widx, wild_inner, non_wild, binding_span,
    heq, hctxt, hlen, hguards, hlocal, hrpos, hwild, hnon, hor, hbind, heqv, hguard, huse,
    (Option.some.inj h).symm⟩

/-- Sufficiency of the conditional-binding detector's conditions: when the
unwrapped outer expression is a conditional-binding whose scrutinee resolves
to a local bound in the outer pattern and unused in the inner then-body,
`check_if_let` reports the binding site and the inner pattern. -/
theorem check_if_let_eq_some (cx : Ctx) {oe : Expr} {op ip : Pat} {iscrut ithen : Expr}
    {ielse : Option Expr} {spI : Span} {id : Nat} {bsp : Span}
    (hs : strip_singleton_blocks oe = .condBinding ip iscrut ithen ielse spI)
    (hl : path_to_local_peeled iscrut = some id)
    (hb : find_pat_binding op id = some bsp)
    (hu : usedIn id ithen = false) :
    check_if_let cx oe op = some ⟨spI, bsp, Pat.span ip⟩ := by
  unfold check_if_let
  rw [hs]
  simp [hl, hb, hu]

/-- Inversion of the conditional-binding detector. -/
theorem check_if_let_inv {cx : Ctx} {oe : Expr} {op : Pat} {r : Report}
    (h : check_if_let cx oe op = some r) :
    ∃ ip iscrut ithen ielse spI id bsp,
      strip_singleton_blocks oe = .condBinding ip iscrut ithen ielse spI ∧
      path_to_local_peeled iscrut = some id ∧
      find_pat_binding op id = some bsp ∧
      usedIn id ithen = false ∧
      r = ⟨spI, bsp, Pat.span ip⟩ := by
  unfold check_if_let at h
  repeat' split at h
  all_goals try exact Option.noConfusion h
  rename_i x1 ip iscrut ithen ielse spI heq x2 id hl x3 bsp hb hu
  exact ⟨ip, iscrut, ithen, ielse, spI, id, bsp, heq, hl, hb, by simpa using hu,
    (Option.some.inj h).symm⟩



/-- C1: the selected wild fallback arm is never reported as the outer arm of
a collapse: checking any arm against its own body as the fallback can never
produce a report, because the inner wild arm's body is a strict subexpression
of the arm's body and so cannot be structurally equivalent to it.  In the
driver, the fallback arm is checked with its own body as `wild_outer_block`,
so no emitted report identifies the fallback arm as the outer arm. -/
theorem claim_c1_no_self_report (cx : Ctx) (a : Arm) :
    check_arm cx a.body a.guard a.pat (some a.body) = none := by
  cases hc : check_arm cx a.body a.guard a.pat (some a.body) with
  | none => rfl
  | some r =>
    exfalso
    obtain ⟨expr_in, arms, sp, bid, widx, wi, nwi, bsp,
      heq, _, _, _, _, _, hwild, _, _, _, heqv, _, _, _⟩ := check_arm_inv hc
    have heq2 : eqExpr wi.body a.body = true := by
      simpa [wildBodiesEq] using heqv
    have hsz := eqExpr_size _ _ heq2
    have hmem : wi ∈ arms := List.getElem?_mem hwild
    have h1 : Arm.size wi ≤ Arm.sizeList arms := arm_size_le_of_mem hmem
    have h2 : Expr.size wi.body < Arm.size wi := body_size_lt_arm wi
    have h3 : Expr.size (strip_singleton_blocks a.body) ≤ Expr.size a.body := strip_size_le _
    rw [heq] at h3
    simp only [Expr.size] at h3
    omega

/-- C7: `is_wild_like` returns false whenever a guard is present, and
otherwise returns true exactly for the wildcard pattern, any binding
pattern, and a nullary constructor recognized as the standard absent
constructor; all other patterns yield false. -/
theorem claim_c7_wild_like_characterization (cx : Ctx) (p : Pat) (g : Option GuardE) :
    is_wild_like cx p g = true ↔
      (g = none ∧
        ((∃ sp, p = .wild sp) ∨ (∃ i sp, p = .binding i sp) ∨
          (∃ n sp, p = .ctor n [] sp ∧ cx.isAbsentCtor n = true))) := by
  cases g with
  | some g0 => simp [is_wild_like]
  | none =>
    cases p with
    | wild sp => simp [is_wild_like]
    | binding i sp => simp [is_wild_like]
    | ctor n args sp =>
        cases args with
        | nil => simp [is_wild_like]
        | cons q qs => simp [is_wild_like]
    | orPat alts sp => simp [is_wild_like]
    | lit t sp => simp [is_wild_like]


/-- C2 counterexample: a report is produced although BOTH inner arms are
wild-like (the first a plain binding, the second a wildcard): the code only
requires at least one wild-like inner arm, not exactly one. -/
theorem claim_c2_counterexample :
    check_arm ⟨fun n => n == 0⟩
      (.caseDispatch (.localRef 5 0 ⟨2,0⟩)
        [.mk (.binding 7 ⟨4,0⟩) none (.other 0 [] ⟨5,0⟩),
         .mk (.wild ⟨6,0⟩) none (.other 1 [] ⟨7,0⟩)] ⟨3,0⟩)
      none (.binding 5 ⟨1,0⟩) (some (.other 1 [] ⟨9,0⟩))
      = some ⟨⟨3,0⟩, ⟨1,0⟩, ⟨4,0⟩⟩ ∧
    is_wild_like ⟨fun n => n == 0⟩ (.binding 7 ⟨4,0⟩) none = true ∧
    is_wild_like ⟨fun n => n == 0⟩ (.wild ⟨6,0⟩) none = true := by
  refine ⟨?_, by simp [is_wild_like], by simp [is_wild_like]⟩
  simp [check_arm, strip_singleton_blocks, Expr.span, Pat.span, path_to_local_peeled,
    rposition, is_wild_like, Arm.pat, Arm.guard, Arm.body, pat_contains_or, find_pat_binding,
    findPatBindingAux, wildBodiesEq, eqExpr, eqExprList, guardNotUses, usedIn, usedInArm,
    usedInList, usedInGuardOpt]

/-- C2 (amended): a multi-arm report is produced only if the unwrapped inner
dispatch has exactly 2 arms, no inner arm carries a guard, and AT LEAST one
inner arm is wild-like; the inner wild arm is the last wild-like one and the
other arm is inner_keep, which may itself also be wild-like. -/
theorem claim_c2_amended (cx : Ctx) (ob : Expr) (og : Option GuardE) (op : Pat)
    (wob : Option Expr) (r : Report) (h : check_arm cx ob og op wob = some r) :
    ∃ expr_in arms sp,
      strip_singleton_blocks ob = .caseDispatch expr_in arms sp ∧
      arms.length = 2 ∧
      (∀ a ∈ arms, a.guard = none) ∧
      ∃ widx w, rposition arms (fun a => is_wild_like cx a.pat a.guard) = some widx ∧
        arms[widx]? = some w ∧ is_wild_like cx w.pat w.guard = true := by
  obtain ⟨expr_in, arms, sp, bid, widx, wi, nwi, bsp,
    heq, _, hlen, hguards, _, hrpos, hwild, _, _, _, _, _, _, _⟩ := check_arm_inv h
  refine ⟨expr_in, arms, sp, heq, by simpa using hlen, ?_, widx, wi, hrpos, hwild, ?_⟩
  · intro a ha
    have := List.all_eq_true.mp hguards a ha
    simpa using this
  · obtain ⟨a, ha, hpa⟩ := rposition_spec _ _ _ hrpos
    rw [hwild] at ha
    obtain rfl : wi = a := Option.some.inj ha
    exact hpa

/-- C2 witness: the amended theorem applied at the counterexample's input. -/
theorem claim_c2_amended_witness :
    ∃ expr_in arms sp,
      strip_singleton_blocks
        (.caseDispatch (.localRef 5 0 ⟨2,0⟩)
          [.mk (.binding 7 ⟨4,0⟩) none (.other 0 [] ⟨5,0⟩),
           .mk (.wild ⟨6,0⟩) none (.other 1 [] ⟨7,0⟩)] ⟨3,0⟩)
        = .caseDispatch expr_in arms sp ∧
      arms.length = 2 ∧
      (∀ a ∈ arms, a.guard = none) ∧
      ∃ widx w, rposition arms (fun a => is_wild_like ⟨fun n => n == 0⟩ a.pat a.guard) = some widx ∧
        arms[widx]? = some w ∧ is_wild_like ⟨fun n => n == 0⟩ w.pat w.guard = true :=
  claim_c2_amended ⟨fun n => n == 0⟩
    (.caseDispatch (.localRef 5 0 ⟨2,0⟩)
      [.mk (.binding 7 ⟨4,0⟩) none (.other 0 [] ⟨5,0⟩),
       .mk (.wild ⟨6,0⟩) none (.other 1 [] ⟨7,0⟩)] ⟨3,0⟩)
    none (.binding 5 ⟨1,0⟩) (some (.other 1 [] ⟨9,0⟩)) ⟨⟨3,0⟩, ⟨1,0⟩, ⟨4,0⟩⟩
    (by simp [check_arm, strip_singleton_blocks, Expr.span, Pat.span, path_to_local_peeled,
      rposition, is_wild_like, Arm.pat, Arm.guard, Arm.body, pat_contains_or, find_pat_binding,
      findPatBindingAux, wildBodiesEq, eqExpr, eqExprList, guardNotUses, usedIn, usedInArm,
      usedInList, usedInGuardOpt])


/-- C4: usage blocks collapse — when the candidate binding (the local the
inner dispatch scrutinizes) is read in the outer arm's guard or anywhere in
an arm of the inner dispatch, `check_arm` produces no report. -/
theorem claim_c4_usage_blocks (cx : Ctx) (ob : Expr) (og : Option GuardE) (op : Pat)
    (wob : Option Expr) (expr_in : Expr) (arms : List Arm) (sp : Span) (id : Nat)
    (hs : strip_singleton_blocks ob = .caseDispatch expr_in arms sp)
    (hl : path_to_local_peeled expr_in = some id)
    (hu : usedInGuardOpt id og = true ∨ ∃ a ∈ arms, usedInArm id a = true) :
    check_arm cx ob og op wob = none := by
  cases hc : check_arm cx ob og op wob with
  | none => rfl
  | some r =>
    exfalso
    obtain ⟨expr_in2, arms2, sp2, bid, widx, wi, nwi, bsp,
      heq, _, _, _, hlocal, _, _, _, _, _, _, hguard, huse, _⟩ := check_arm_inv hc
    rw [hs] at heq
    injection heq with h1 h2 h3
    subst h1; subst h2; subst h3
    rw [hl] at hlocal
    obtain rfl : id = bid := Option.some.inj hlocal
    rcases hu with hg | ⟨a, ha, hua⟩
    · cases og with
      | none => simp [usedInGuardOpt] at hg
      | some g0 =>
        cases g0 with
        | ifGuard e =>
            simp [guardNotUses, GuardE.expr] at hguard
            simp [usedInGuardOpt] at hg
            rw [hg] at hguard
            exact absurd hguard (by simp)
        | ifLetGuard q e =>
            simp [guardNotUses, GuardE.expr] at hguard
            simp [usedInGuardOpt] at hg
            rw [hg] at hguard
            exact absurd hguard (by simp)
    · have hany : arms.any (fun a => usedInArm id a) = true :=
        List.any_eq_true.mpr ⟨a, ha, hua⟩
      rw [hany] at huse
      exact absurd huse (by simp)

/-- C6: no collapse across Or — when the kept (non-wild) inner arm's pattern
contains an Or sub-pattern anywhere, `check_arm` produces no report. -/
theorem claim_c6_or_blocks (cx : Ctx) (ob : Expr) (og : Option GuardE) (op : Pat)
    (wob : Option Expr) (expr_in : Expr) (arms : List Arm) (sp : Span) (widx : Nat) (keep : Arm)
    (hs : strip_singleton_blocks ob = .caseDispatch expr_in arms sp)
    (hrpos : rposition arms (fun a => is_wild_like cx a.pat a.guard) = some widx)
    (hkeep : arms[1 - widx]? = some keep)
    (hor : pat_contains_or keep.pat = true) :
    check_arm cx ob og op wob = none := by
  cases hc : check_arm cx ob og op wob with
  | none => rfl
  | some r =>
    exfalso
    obtain ⟨expr_in2, arms2, sp2, bid, widx2, wi, nwi, bsp,
      heq, _, _, _, _, hrpos2, _, hnon, hor2, _, _, _, _, _⟩ := check_arm_inv hc
    rw [hs] at heq
    injection heq with h1 h2 h3
    subst h1; subst h2; subst h3
    rw [hrpos] at hrpos2
    obtain rfl : widx = widx2 := Option.some.inj hrpos2
    rw [hkeep] at hnon
    obtain rfl : keep = nwi := Option.some.inj hnon
    rw [hor] at hor2
    exact absurd hor2 (by simp)


/-- C4 witness: a concrete dispatch whose candidate binding is read in an
inner arm's body, hence no report. -/
theorem claim_c4_witness :
    check_arm ⟨fun n => n == 0⟩
      (.caseDispatch (.localRef 5 0 ⟨4,0⟩)
        [.mk (.wild ⟨0,0⟩) none (.localRef 5 0 ⟨1,0⟩),
         .mk (.wild ⟨2,0⟩) none (.other 0 [] ⟨3,0⟩)] ⟨5,0⟩)
      none (.binding 5 ⟨6,0⟩) none = none :=
  claim_c4_usage_blocks ⟨fun n => n == 0⟩
    (.caseDispatch (.localRef 5 0 ⟨4,0⟩)
      [.mk (.wild ⟨0,0⟩) none (.localRef 5 0 ⟨1,0⟩),
       .mk (.wild ⟨2,0⟩) none (.other 0 [] ⟨3,0⟩)] ⟨5,0⟩)
    none (.binding 5 ⟨6,0⟩) none
    (.localRef 5 0 ⟨4,0⟩)
    [.mk (.wild ⟨0,0⟩) none (.localRef 5 0 ⟨1,0⟩),
     .mk (.wild ⟨2,0⟩) none (.other 0 [] ⟨3,0⟩)]
    ⟨5,0⟩ 5
    (by simp [strip_singleton_blocks])
    (by simp [path_to_local_peeled])
    (Or.inr ⟨.mk (.wild ⟨0,0⟩) none (.localRef 5 0 ⟨1,0⟩), by simp,
      by simp [usedInArm, usedIn, usedInGuardOpt, Arm.guard, Arm.body]⟩)

/-- C6 witness: a concrete dispatch whose kept inner arm's pattern contains
an Or alternation, hence no report. -/
theorem claim_c6_witness :
    check_arm ⟨fun n => n == 0⟩
      (.caseDispatch (.localRef 10 0 ⟨9,0⟩)
        [.mk (.ctor 2 [.orPat [.binding 11 ⟨0,0⟩, .binding 12 ⟨1,0⟩] ⟨2,0⟩] ⟨3,0⟩) none
           (.other 0 [] ⟨4,0⟩),
         .mk (.wild ⟨5,0⟩) none (.other 1 [] ⟨6,0⟩)] ⟨10,0⟩)
      none (.ctor 1 [.binding 10 ⟨7,0⟩] ⟨8,0⟩) none = none :=
  claim_c6_or_blocks ⟨fun n => n == 0⟩
    (.caseDispatch (.localRef 10 0 ⟨9,0⟩)
      [.mk (.ctor 2 [.orPat [.binding 11 ⟨0,0⟩, .binding 12 ⟨1,0⟩] ⟨2,0⟩] ⟨3,0⟩) none
         (.other 0 [] ⟨4,0⟩),
       .mk (.wild ⟨5,0⟩) none (.other 1 [] ⟨6,0⟩)] ⟨10,0⟩)
    none (.ctor 1 [.binding 10 ⟨7,0⟩] ⟨8,0⟩) none
    (.localRef 10 0 ⟨9,0⟩)
    [.mk (.ctor 2 [.orPat [.binding 11 ⟨0,0⟩, .binding 12 ⟨1,0⟩] ⟨2,0⟩] ⟨3,0⟩) none
       (.other 0 [] ⟨4,0⟩),
     .mk (.wild ⟨5,0⟩) none (.other 1 [] ⟨6,0⟩)]
    ⟨10,0⟩ 1
    (.mk (.ctor 2 [.orPat [.binding 11 ⟨0,0⟩, .binding 12 ⟨1,0⟩] ⟨2,0⟩] ⟨3,0⟩) none
       (.other 0 [] ⟨4,0⟩))
    (by simp [strip_singleton_blocks])
    (by simp [rposition, is_wild_like, Arm.pat, Arm.guard])
    (by simp)
    (by simp [pat_contains_or, patListContainsOr, Arm.pat])

/-- C5: with a fallback body supplied, a report requires the inner wild
arm's body to be structurally equivalent (span-insensitively) to it; with no
fallback the condition is vacuous.  Concretely (Scenario E): with outer
fallback `log_and_return()` against inner wild body `return`, no report; the
same input with no fallback supplied does report. -/
theorem claim_c5_fallback_equivalence :
    (∀ (cx : Ctx) (ob : Expr) (og : Option GuardE) (op : Pat) (w : Expr) (r : Report),
      check_arm cx ob og op (some w) = some r →
      ∃ expr_in arms sp widx wild_inner,
        strip_singleton_blocks ob = .caseDispatch expr_in arms sp ∧
        rposition arms (fun a => is_wild_like cx a.pat a.guard) = some widx ∧
        arms[widx]? = some wild_inner ∧
        eqExpr wild_inner.body w = true) ∧
    check_arm ⟨fun n => n == 0⟩
      (.caseDispatch (.localRef 10 0 ⟨4,0⟩)
        [.mk (.ctor 2 [.binding 11 ⟨6,0⟩] ⟨7,0⟩) none (.localRef 11 0 ⟨8,0⟩),
         .mk (.wild ⟨9,0⟩) none (.other 7 [] ⟨10,0⟩)] ⟨5,0⟩)
      none (.ctor 1 [.binding 10 ⟨2,0⟩] ⟨3,0⟩) (some (.other 8 [] ⟨20,0⟩)) = none ∧
    check_arm ⟨fun n => n == 0⟩
      (.caseDispatch (.localRef 10 0 ⟨4,0⟩)
        [.mk (.ctor 2 [.binding 11 ⟨6,0⟩] ⟨7,0⟩) none (.localRef 11 0 ⟨8,0⟩),
         .mk (.wild ⟨9,0⟩) none (.other 7 [] ⟨10,0⟩)] ⟨5,0⟩)
      none (.ctor 1 [.binding 10 ⟨2,0⟩] ⟨3,0⟩) none
      = some ⟨⟨5,0⟩, ⟨2,0⟩, ⟨7,0⟩⟩ := by
  refine ⟨?_, ?_, ?_⟩
  · intro cx ob og op w r h
    obtain ⟨expr_in, arms, sp, bid, widx, wi, nwi, bsp,
      heq, _, _, _, _, hrpos, hwild, _, _, _, heqv, _, _, _⟩ := check_arm_inv h
    exact ⟨expr_in, arms, sp, widx, wi, heq, hrpos, hwild, by simpa [wildBodiesEq] using heqv⟩
  · simp [check_arm, strip_singleton_blocks, Expr.span, Pat.span, path_to_local_peeled,
      rposition, is_wild_like, Arm.pat, Arm.guard, Arm.body, pat_contains_or, patListContainsOr,
      find_pat_binding, findPatBindingAux, findPatBindingList, wildBodiesEq, eqExpr, eqExprList,
      guardNotUses, usedIn, usedInArm, usedInList, usedInGuardOpt]
  · simp [check_arm, strip_singleton_blocks, Expr.span, Pat.span, path_to_local_peeled,
      rposition, is_wild_like, Arm.pat, Arm.guard, Arm.body, pat_contains_or, patListContainsOr,
      find_pat_binding, findPatBindingAux, findPatBindingList, wildBodiesEq, eqExpr, eqExprList,
      guardNotUses, usedIn, usedInArm, usedInList, usedInGuardOpt]

/-- C5 witness: the equivalence necessity applied at a concrete reporting
input (Scenario A: fallback body `return` matching the inner wild body). -/
theorem claim_c5_witness :
    ∃ expr_in arms sp widx wild_inner,
      strip_singleton_blocks
        (.caseDispatch (.localRef 10 0 ⟨4,0⟩)
          [.mk (.ctor 2 [.binding 11 ⟨6,0⟩] ⟨7,0⟩) none (.localRef 11 0 ⟨8,0⟩),
           .mk (.wild ⟨9,0⟩) none (.other 7 [] ⟨10,0⟩)] ⟨5,0⟩)
        = .caseDispatch expr_in arms sp ∧
      rposition arms (fun a => is_wild_like ⟨fun n => n == 0⟩ a.pat a.guard) = some widx ∧
      arms[widx]? = some wild_inner ∧
      eqExpr wild_inner.body (.other 7 [] ⟨12,0⟩) = true :=
  claim_c5_fallback_equivalence.1 ⟨fun n => n == 0⟩ _ none (.ctor 1 [.binding 10 ⟨2,0⟩] ⟨3,0⟩)
    (.other 7 [] ⟨12,0⟩) ⟨⟨5,0⟩, ⟨2,0⟩, ⟨7,0⟩⟩
    (by simp [check_arm, strip_singleton_blocks, Expr.span, Pat.span, path_to_local_peeled,
      rposition, is_wild_like, Arm.pat, Arm.guard, Arm.body, pat_contains_or, patListContainsOr,
      find_pat_binding, findPatBindingAux, findPatBindingList, wildBodiesEq, eqExpr, eqExprList,
      guardNotUses, usedIn, usedInArm, usedInList, usedInGuardOpt])


/-- C3: for an outer dispatch whose first arm's unwrapped body is a
conditional-binding scrutinizing (after reference-stripping) a local bound
in that arm's pattern and unused in the inner then-body, the driver emits
the conditional-binding report (binding site, inner pattern) — with no
structural-equivalence hypothesis required. -/
theorem claim_c3_cond_binding_report (cx : Ctx) (sc : Expr) (first : Arm) (rest : List Arm)
    (sp0 : Span) (ip : Pat) (iscrut ithen : Expr) (ielse : Option Expr) (spI : Span)
    (id : Nat) (bsp : Span)
    (hs : strip_singleton_blocks first.body = .condBinding ip iscrut ithen ielse spI)
    (hl : path_to_local_peeled iscrut = some id)
    (hb : find_pat_binding first.pat id = some bsp)
    (hu : usedIn id ithen = false) :
    (⟨spI, bsp, Pat.span ip⟩ : Report) ∈ check_expr cx (.caseDispatch sc (first :: rest) sp0) := by
  have h := check_if_let_eq_some cx hs hl hb hu
  simp [check_expr, h]

/-- C3 witness: the report membership at a concrete `match` whose first arm
holds an `if let` on the bound local (Scenario D shape). -/
theorem claim_c3_witness :
    (⟨⟨5,0⟩, ⟨2,0⟩, ⟨7,0⟩⟩ : Report) ∈
      check_expr ⟨fun n => n == 0⟩
        (.caseDispatch (.other 99 [] ⟨0,0⟩)
          [.mk (.ctor 1 [.binding 10 ⟨2,0⟩] ⟨3,0⟩) none
            (.condBinding (.ctor 2 [.binding 11 ⟨6,0⟩] ⟨7,0⟩) (.localRef 10 0 ⟨4,0⟩)
              (.other 3 [.localRef 11 0 ⟨8,0⟩] ⟨9,0⟩) none ⟨5,0⟩)]
          ⟨1,0⟩) :=
  claim_c3_cond_binding_report ⟨fun n => n == 0⟩ (.other 99 [] ⟨0,0⟩)
    (.mk (.ctor 1 [.binding 10 ⟨2,0⟩] ⟨3,0⟩) none
      (.condBinding (.ctor 2 [.binding 11 ⟨6,0⟩] ⟨7,0⟩) (.localRef 10 0 ⟨4,0⟩)
        (.other 3 [.localRef 11 0 ⟨8,0⟩] ⟨9,0⟩) none ⟨5,0⟩))
    [] ⟨1,0⟩
    (.ctor 2 [.binding 11 ⟨6,0⟩] ⟨7,0⟩) (.localRef 10 0 ⟨4,0⟩)
    (.other 3 [.localRef 11 0 ⟨8,0⟩] ⟨9,0⟩) none ⟨5,0⟩ 10 ⟨2,0⟩
    (by simp [strip_singleton_blocks, Arm.body])
    (by simp [path_to_local_peeled])
    (by simp [find_pat_binding, findPatBindingAux, findPatBindingList, Arm.pat])
    (by simp [usedIn, usedInList])

/-- C8: `strip_singleton_blocks` is total by construction; a non-trivial
wrapper (any expression admitting no singleton-unwrapping step) is returned
unchanged, and each unwrapping step strictly decreases structural size while
preserving the final result, so the reduction terminates. -/
theorem claim_c8_strip_total :
    (∀ e : Expr, singletonStep e = none → strip_singleton_blocks e = e) ∧
    (∀ e e' : Expr, singletonStep e = some e' →
      strip_singleton_blocks e = strip_singleton_blocks e' ∧ Expr.size e' < Expr.size e) := by
  constructor
  · intro e h
    unfold singletonStep at h
    unfold strip_singleton_blocks
    split
    · simp at h
    · simp at h
    · simp at h
    · rfl
  · intro e e' h
    unfold singletonStep at h
    split at h <;> try exact Option.noConfusion h
    · obtain rfl := Option.some.inj h
      constructor
      · rw [strip_singleton_blocks]
      · simp only [Expr.size, Stmt.size, Stmt.sizeList, Expr.sizeOpt]
        omega
    · obtain rfl := Option.some.inj h
      constructor
      · rw [strip_singleton_blocks]
      · simp only [Expr.size, Stmt.size, Stmt.sizeList, Expr.sizeOpt]
        omega
    · obtain rfl := Option.some.inj h
      constructor
      · rw [strip_singleton_blocks]
      · simp only [Expr.size, Stmt.size, Stmt.sizeList, Expr.sizeOpt]
        omega

/-- C8 witness: the fixpoint clause at a non-block leaf and the reduction
clause at a one-statement wrapper block. -/
theorem claim_c8_witness :
    (strip_singleton_blocks (.localRef 3 0 ⟨0,0⟩) = .localRef 3 0 ⟨0,0⟩) ∧
    (strip_singleton_blocks (.block [.exprStmt (.localRef 3 0 ⟨0,0⟩)] none ⟨1,0⟩) =
        strip_singleton_blocks (.localRef 3 0 ⟨0,0⟩) ∧
      Expr.size (.localRef 3 0 ⟨0,0⟩) <
        Expr.size (.block [.exprStmt (.localRef 3 0 ⟨0,0⟩)] none ⟨1,0⟩)) :=
  ⟨claim_c8_strip_total.1 _ (by simp [singletonStep]),
   claim_c8_strip_total.2 _ _ (by simp [singletonStep])⟩


/-- C9: with no wild-like arm (in particular with zero arms) the multi-arm
path runs no candidate checks and yields no report; when wild-like arms
exist the fallback is the last one scanning from the end, and every arm is
checked against its body. -/
theorem claim_c9_no_wild_no_report :
    (∀ cx : Ctx, multiArmReports cx [] = []) ∧
    (∀ (cx : Ctx) (arms : List Arm),
      (∀ a ∈ arms, is_wild_like cx a.pat a.guard = false) → multiArmReports cx arms = []) ∧
    (∀ (cx : Ctx) (arms : List Arm) (w : Arm),
      rfind arms (fun a => is_wild_like cx a.pat a.guard) = some w →
      is_wild_like cx w.pat w.guard = true ∧
      (∃ i, arms[i]? = some w ∧
        ∀ (j : Nat) (b : Arm), i < j → arms[j]? = some b →
          is_wild_like cx b.pat b.guard = false) ∧
      multiArmReports cx arms =
        arms.filterMap (fun arm => check_arm cx arm.body arm.guard arm.pat (some w.body))) := by
  refine ⟨?_, ?_, ?_⟩
  · intro cx
    simp [multiArmReports, rfind]
  · intro cx arms h
    rw [multiArmReports, rfind_eq_none _ _ h]
  · intro cx arms w h
    obtain ⟨hpw, i, hi, hlast⟩ := rfind_last _ _ _ h
    refine ⟨by simpa using hpw, ⟨i, hi, fun j b hj hjb => by simpa using hlast j b hj hjb⟩, ?_⟩
    rw [multiArmReports, h]

/-- C9 witness: the no-wild clause at a one-arm dispatch whose arm is a
literal pattern, and the last-fallback clause at a two-arm dispatch whose
both arms are wild-like (the later one is selected). -/
theorem claim_c9_witness :
    (multiArmReports ⟨fun n => n == 0⟩
      [.mk (.lit 0 ⟨0,0⟩) none (.other 0 [] ⟨1,0⟩)] = []) ∧
    (is_wild_like ⟨fun n => n == 0⟩
        (Arm.mk (.wild ⟨4,0⟩) none (.other 2 [] ⟨5,0⟩)).pat
        (Arm.mk (.wild ⟨4,0⟩) none (.other 2 [] ⟨5,0⟩)).guard = true ∧
      (∃ i, [Arm.mk (.binding 9 ⟨2,0⟩) none (.other 1 [] ⟨3,0⟩),
             Arm.mk (.wild ⟨4,0⟩) none (.other 2 [] ⟨5,0⟩)][i]? =
          some (Arm.mk (.wild ⟨4,0⟩) none (.other 2 [] ⟨5,0⟩)) ∧
        ∀ (j : Nat) (b : Arm), i < j →
          [Arm.mk (.binding 9 ⟨2,0⟩) none (.other 1 [] ⟨3,0⟩),
           Arm.mk (.wild ⟨4,0⟩) none (.other 2 [] ⟨5,0⟩)][j]? = some b →
          is_wild_like ⟨fun n => n == 0⟩ b.pat b.guard = false) ∧
      multiArmReports ⟨fun n => n == 0⟩
          [Arm.mk (.binding 9 ⟨2,0⟩) none (.other 1 [] ⟨3,0⟩),
           Arm.mk (.wild ⟨4,0⟩) none (.other 2 [] ⟨5,0⟩)] =
        [Arm.mk (.binding 9 ⟨2,0⟩) none (.other 1 [] ⟨3,0⟩),
         Arm.mk (.wild ⟨4,0⟩) none (.other 2 [] ⟨5,0⟩)].filterMap
          (fun arm => check_arm ⟨fun n => n == 0⟩ arm.body arm.guard arm.pat
            (some (Arm.mk (.wild ⟨4,0⟩) none (.other 2 [] ⟨5,0⟩)).body))) :=
  ⟨claim_c9_no_wild_no_report.2.1 ⟨fun n => n == 0⟩ _
      (by simp [is_wild_like, Arm.pat, Arm.guard]),
   claim_c9_no_wild_no_report.2.2 ⟨fun n => n == 0⟩ _ _
      (by simp [rfind, is_wild_like, Arm.pat, Arm.guard])⟩


mutual

/-- Predicate stating C10's hypothesis: some binding occurrence of `id`
exists in the pattern outside every `Or` sub-pattern. -/
def bindingOutsideOr (id : Nat) : Pat → Bool
  | .orPat _ _ => false
  | .binding i _ => i == id
  | .ctor _ args _ => bindingOutsideOrList id args
  | _ => false

def bindingOutsideOrList (id : Nat) : List Pat → Bool
  | [] => false
  | p :: ps => bindingOutsideOr id p || bindingOutsideOrList id ps

end

mutual

theorem findPatBindingAux_some (id : Nat) :
    ∀ (p : Pat) (sp : Span) (c : Bool),
      findPatBindingAux id p = (some sp, c) → bindingOutsideOr id p = true
  | .orPat _ _, sp, c, h => by simp [findPatBindingAux] at h
  | .binding i s, sp, c, h => by
      unfold findPatBindingAux at h
      split at h
      · rename_i hi
        simpa [bindingOutsideOr] using hi
      · exact absurd h (by simp)
  | .wild _, sp, c, h => by simp [findPatBindingAux] at h
  | .lit _ _, sp, c, h => by simp [findPatBindingAux] at h
  | .ctor _ args _, sp, c, h => by
      unfold findPatBindingAux at h
      simpa [bindingOutsideOr] using findPatBindingList_some id args sp c h

theorem findPatBindingList_some (id : Nat) :
    ∀ (l : List Pat) (sp : Span) (c : Bool),
      findPatBindingList id l = (some sp, c) → bindingOutsideOrList id l = true
  | [], sp, c, h => by simp [findPatBindingList] at h
  | p :: ps, sp, c, h => by
      unfold findPatBindingList at h
      split at h
      · rename_i res hres
        simp at h
        rw [h.1] at hres
        have := findPatBindingAux_some id p sp false hres
        simp [bindingOutsideOrList, this]
      · have := findPatBindingList_some id ps sp c h
        simp [bindingOutsideOrList, this]

end

/-- C10: when every binding occurrence of the candidate identifier in the
outer pattern lies underneath an `Or` sub-pattern, the binding-position
search finds nothing, and consequently neither the multi-arm form nor the
conditional-binding form produces a report. -/
theorem claim_c10_or_hides_binding :
    (∀ (id : Nat) (p : Pat), bindingOutsideOr id p = false → find_pat_binding p id = none) ∧
    (∀ (cx : Ctx) (ob : Expr) (og : Option GuardE) (op : Pat) (wob : Option Expr)
        (expr_in : Expr) (arms : List Arm) (sp : Span) (id : Nat),
      strip_singleton_blocks ob = .caseDispatch expr_in arms sp →
      path_to_local_peeled expr_in = some id →
      bindingOutsideOr id op = false →
      check_arm cx ob og op wob = none) ∧
    (∀ (cx : Ctx) (oe : Expr) (op ip : Pat) (iscrut ithen : Expr) (ielse : Option Expr)
        (spI : Span) (id : Nat),
      strip_singleton_blocks oe = .condBinding ip iscrut ithen ielse spI →
      path_to_local_peeled iscrut = some id →
      bindingOutsideOr id op = false →
      check_if_let cx oe op = none) := by
  have base : ∀ (id : Nat) (p : Pat), bindingOutsideOr id p = false →
      find_pat_binding p id = none := by
    intro id p h
    cases hfa : findPatBindingAux id p with
    | mk res c =>
      cases res with
      | none => simp [find_pat_binding, hfa]
      | some sp =>
          have := findPatBindingAux_some id p sp c hfa
          rw [h] at this
          exact absurd this (by simp)
  refine ⟨base, ?_, ?_⟩
  · intro cx ob og op wob expr_in arms sp id hs hl hout
    cases hc : check_arm cx ob og op wob with
    | none => rfl
    | some r =>
      exfalso
      obtain ⟨expr_in2, arms2, sp2, bid, widx, wi, nwi, bsp,
        heq, _, _, _, hlocal, _, _, _, _, hbind, _, _, _, _⟩ := check_arm_inv hc
      rw [hs] at heq
      injection heq with h1 h2 h3
      subst h1; subst h2; subst h3
      rw [hl] at hlocal
      obtain rfl : id = bid := Option.some.inj hlocal
      rw [base id op hout] at hbind
      exact Option.noConfusion hbind
  · intro cx oe op ip iscrut ithen ielse spI id hs hl hout
    cases hc : check_if_let cx oe op with
    | none => rfl
    | some r =>
      exfalso
      obtain ⟨ip2, iscrut2, ithen2, ielse2, spI2, id2, bsp, heq, hl2, hb2, _, _⟩ :=
        check_if_let_inv hc
      rw [hs] at heq
      injection heq with h1 h2 h3 h4 h5
      subst h1; subst h2; subst h3; subst h4; subst h5
      rw [hl] at hl2
      obtain rfl : id = id2 := Option.some.inj hl2
      rw [base id op hout] at hb2
      exact Option.noConfusion hb2

/-- C10 witness: a pattern whose only binding of the searched identifier
sits under an `Or`, applied to the search and to both detector forms. -/
theorem claim_c10_witness :
    (find_pat_binding (.orPat [.binding 5 ⟨0,0⟩] ⟨1,0⟩) 5 = none) ∧
    (check_arm ⟨fun n => n == 0⟩ (.caseDispatch (.localRef 5 0 ⟨2,0⟩) [] ⟨3,0⟩)
      none (.orPat [.binding 5 ⟨0,0⟩] ⟨1,0⟩) none = none) ∧
    (check_if_let ⟨fun n => n == 0⟩
      (.condBinding (.wild ⟨4,0⟩) (.localRef 5 0 ⟨5,0⟩) (.other 0 [] ⟨6,0⟩) none ⟨7,0⟩)
      (.orPat [.binding 5 ⟨0,0⟩] ⟨1,0⟩) = none) :=
  ⟨claim_c10_or_hides_binding.1 5 (.orPat [.binding 5 ⟨0,0⟩] ⟨1,0⟩)
      (by simp [bindingOutsideOr]),
   claim_c10_or_hides_binding.2.1 ⟨fun n => n == 0⟩ _ none _ none
      (.localRef 5 0 ⟨2,0⟩) [] ⟨3,0⟩ 5
      (by simp [strip_singleton_blocks])
      (by simp [path_to_local_peeled])
      (by simp [bindingOutsideOr]),
   claim_c10_or_hides_binding.2.2 ⟨fun n => n == 0⟩ _ _
      (.wild ⟨4,0⟩) (.localRef 5 0 ⟨5,0⟩) (.other 0 [] ⟨6,0⟩) none ⟨7,0⟩ 5
      (by simp [strip_singleton_blocks])
      (by simp [path_to_local_peeled])
      (by simp [bindingOutsideOr])⟩

end CollapsibleMatch
